import Mathlib

/-!
Verification of the daily-assistant dispatch pipeline.

This file gives a shallow embedding, in Lean, of the scope-resolution,
aggregation, storage and scheduling code of the assistant (a Telegram bot
managing todos, shopping items and calendar events), and proves or refutes
the specification claims about it.

Conventions of the embedding:
 - the MySQL database is modelled as an explicit list of rows; an
   auto-increment id is `1 + max existing id`;
 - JavaScript timestamps (`Date.getTime()`) are integers (milliseconds);
 - JavaScript falsy coercions on numbers (`x || null`) are modelled by
   `falsyNat`; a JS array (even the empty one) is truthy;
 - throwing JS code is modelled with `Except String`;
 - id values (user ids, group ids, record ids) are MySQL AUTO_INCREMENT
   naturals, so assignee-id lists are `List Nat`.
-/

deriving instance DecidableEq for Except

namespace DailyAssistant

/-! ## Users, groups, and the scope resolver (src/utils/scopeParser.ts) -/

/-- A row of the `users` table; the three name columns are nullable. -/
structure User where
  id : Nat
  custom_name : Option String
  display_name : Option String
  telegram_username : Option String
deriving DecidableEq

/-- The read-only lookup context of the scope resolver: the `users` table and
the `group_members` relation, as (group id, user id) pairs.  The resolver only
reads from it, so modelling it as a plain value makes the "no writes" part of
the resolver's contract hold by construction. -/
structure Env where
  users : List User
  memberships : List (Nat × Nat)
deriving DecidableEq

/-- JavaScript `String.prototype.trim` whitespace (the characters that occur
in practice). -/
def isJsSpace (c : Char) : Bool :=
  c = ' ' || c = '\t' || c = '\n' || c = '\r'

def trimChars (l : List Char) : List Char :=
  ((l.dropWhile isJsSpace).reverse.dropWhile isJsSpace).reverse

/-- JS `name.replace('@', '')`: with a string pattern, `replace` removes only
the first occurrence. -/
def removeFirstAt : List Char → List Char
  | [] => []
  | c :: r => if c = '@' then r else c :: removeFirstAt r

/-- `scopeParser.resolveUserNames`: `name.replace('@', '').trim()`. -/
def cleanName (s : String) : String :=
  String.mk (trimChars (removeFirstAt s.data))

/-- `UserModel.findByName`: `WHERE custom_name = ? OR display_name = ? OR
telegram_username = ? LIMIT 1`.  The schema DDL is not in the repository; the
spec reads the SQL `=` as exact (binary-collation) string equality, which is
how we model it.  None of the claims proved below depends on the collation. -/
def matchesName (name : String) (u : User) : Bool :=
  u.custom_name == some name || u.display_name == some name ||
    u.telegram_username == some name

def findByName (env : Env) (name : String) : Option User :=
  env.users.find? (matchesName name)

/-- `GroupModel.getMembers`: the users joined to the group through
`group_members`. -/
def getMembers (env : Env) (gid : Nat) : List User :=
  env.users.filter (fun u => env.memberships.contains (gid, u.id))

/-- `m.custom_name?.toLowerCase() === cleanName.toLowerCase()`: a null column
never matches. -/
def lowerEq (o : Option String) (s : String) : Bool :=
  match o with
  | some v => v.toLower == s.toLower
  | none => false

/-- The in-group fallback of `resolveUserNames`: case-insensitive match
against the group's members only. -/
def findMemberCaseInsensitive (env : Env) (gid : Nat) (name : String) : Option User :=
  (getMembers env gid).find? (fun m =>
    lowerEq m.custom_name name || lowerEq m.display_name name ||
      lowerEq m.telegram_username name)

/-- `scopeParser.resolveUserNames`: resolve each name in order; a name
resolves globally first, then (if a group context exists) case-insensitively
among the group's members; unresolved names are silently dropped. -/
def resolveUserNames (env : Env) (gid : Option Nat) : List String → List Nat
  | [] => []
  | name :: rest =>
    let c := cleanName name
    let user :=
      match findByName env c, gid with
      | some u, _ => some u
      | none, some g => findMemberCaseInsensitive env g c
      | none, none => none
    match user with
    | some u => u.id :: resolveUserNames env gid rest
    | none => resolveUserNames env gid rest

/-- The transient scope-resolution result (`ScopeData` in types/index.ts). -/
structure ScopeData where
  userId : Option Nat
  groupId : Option Nat
  assignedUserIds : Option (List Nat)
deriving DecidableEq

inductive Scope
  | me
  | all_of_us
  | me_and_x
deriving DecidableEq

/-- `scopeParser.parseScope`.  A thrown `Error` is modelled as
`Except.error` carrying the message. -/
def parseScope (env : Env) (scope : Scope) (scopeUsers : List String)
    (currentUserId : Nat) (groupId : Option Nat) : Except String ScopeData :=
  match scope with
  | .me => .ok ⟨some currentUserId, none, none⟩
  | .all_of_us =>
    match groupId with
    | none => .error "\"all_of_us\" scope requires a group context"
    | some g => .ok ⟨none, some g, none⟩
  | .me_and_x =>
    if scopeUsers = [] then
      .error "\"me_and_x\" scope requires at least one other user"
    else
      let otherUserIds := resolveUserNames env groupId scopeUsers
      if otherUserIds = [] then
        .error ("Could not find users: " ++ String.intercalate ", " scopeUsers)
      else
        .ok ⟨none, groupId, some (currentUserId :: otherUserIds)⟩

/-! ## Todos: rows, store queries (src/models/todo.ts) and the
list/query aggregation (handlers/todoHandler.ts) -/

inductive Priority
  | low
  | medium
  | high
deriving DecidableEq

/-- `priorityOrder = { high: 3, medium: 2, low: 1 }` from the handler's
in-memory sort (this also matches the ENUM('low','medium','high') index used
by the SQL `ORDER BY priority DESC`). -/
def priorityRank : Priority → Nat
  | .high => 3
  | .medium => 2
  | .low => 1

/-- A row of the `todos` table, with the `assigned_user_ids` JSON column
already parsed (a `TodoWithParsedIds`).  `deadline` and `created_at` are
epoch-millisecond timestamps. -/
structure Todo where
  id : Nat
  user_id : Option Nat
  group_id : Option Nat
  assigned_user_ids : Option (List Nat)
  task : String
  priority : Priority
  deadline : Option Int
  completed : Bool
  created_at : Int
  created_by : Nat
deriving DecidableEq

/-- The SQL `ORDER BY deadline ASC, priority DESC, created_at DESC` with
MySQL's NULL-first behaviour for an ascending sort. -/
def cmpOptDeadline : Option Int → Option Int → Ordering
  | none, none => .eq
  | none, some _ => .lt
  | some _, none => .gt
  | some x, some y => compare x y

def sqlKeyCmp (a b : Todo) : Ordering :=
  (cmpOptDeadline a.deadline b.deadline).then
    ((compare (priorityRank b.priority) (priorityRank a.priority)).then
      (compare b.created_at a.created_at))

def leSqlTodo (a b : Todo) : Prop := sqlKeyCmp a b ≠ Ordering.gt

instance : DecidableRel leSqlTodo := fun a b => by
  unfold leSqlTodo
  infer_instance

def sortSql (l : List Todo) : List Todo :=
  l.insertionSort leSqlTodo

/-- The optional `DATE(deadline) = ?` filter of the `findBy*` queries,
modelled on UTC day indices; a NULL deadline never matches an SQL `=`. -/
def deadlineDayFilter (filter : Option Int) (deadline : Option Int) : Bool :=
  match filter, deadline with
  | none, _ => true
  | some _, none => false
  | some d, some x => x / 86400000 == d

namespace TodoModel

/-- `TodoModel.findByUser`: `WHERE user_id = ?` plus the optional completion
and date filters, ordered by the SQL sort. -/
def findByUser (db : List Todo) (userId : Nat) (includeCompleted : Bool)
    (dayFilter : Option Int) : List Todo :=
  sortSql (db.filter (fun t =>
    t.user_id == some userId && (includeCompleted || !t.completed) &&
      deadlineDayFilter dayFilter t.deadline))

/-- `TodoModel.findByGroup`: `WHERE group_id = ?`. -/
def findByGroup (db : List Todo) (groupId : Nat) (includeCompleted : Bool)
    (dayFilter : Option Int) : List Todo :=
  sortSql (db.filter (fun t =>
    t.group_id == some groupId && (includeCompleted || !t.completed) &&
      deadlineDayFilter dayFilter t.deadline))

/-- `TodoModel.findByAssignedUser`: `WHERE JSON_CONTAINS(assigned_user_ids,
?)`; a NULL assignee column never matches. -/
def findByAssignedUser (db : List Todo) (userId : Nat) (includeCompleted : Bool)
    (dayFilter : Option Int) : List Todo :=
  sortSql (db.filter (fun t =>
    (t.assigned_user_ids.getD []).contains userId && (includeCompleted || !t.completed) &&
      deadlineDayFilter dayFilter t.deadline))

/-- `TodoModel.findById`: `WHERE id = ?`, first row. -/
def findById (db : List Todo) (id : Nat) : Option Todo :=
  db.find? (fun t => t.id == id)

end TodoModel

/-! ### The handler's merge: duplicate removal and the in-memory sort -/

/-- The handlers' duplicate removal, literally
`l.filter((x, index, self) => index === self.findIndex(e => e.id === x.id))`,
generic in the id projection (the same code is repeated for todos, shopping
items and events). -/
def dedupById {α : Type} (getId : α → Nat) (l : List α) : List α :=
  (l.enum.filter (fun p => l.findIdx (fun e => getId e == getId p.2) == p.1)).map
    Prod.snd

/-- The JS comparator of `todoHandler.list`/`query` (lines 102-111): `a`
stays before `b` exactly when the comparator is ≤ 0.  Tasks with a deadline
come first; two dated tasks compare by deadline only; two undated tasks
compare by priority descending; nothing else is consulted. -/
def leTodo (a b : Todo) : Bool :=
  match a.deadline, b.deadline with
  | some _, none => true
  | none, some _ => false
  | some x, some y => decide (x ≤ y)
  | none, none => decide (priorityRank b.priority ≤ priorityRank a.priority)

def leTodoP (a b : Todo) : Prop := leTodo a b = true

instance : DecidableRel leTodoP := fun a b => by
  unfold leTodoP
  infer_instance

/-- The comparator is total: some comparison direction is always ≤ 0. -/
instance : IsTotal Todo leTodoP :=
  ⟨by
    intro a b
    unfold leTodoP leTodo
    cases ha : a.deadline <;> cases hb : b.deadline <;> simp <;> omega⟩

/-- The comparator is transitive (it is lexicographic on
has-deadline / deadline / priority). -/
instance : IsTrans Todo leTodoP :=
  ⟨by
    intro a b c hab hbc
    unfold leTodoP leTodo at hab hbc ⊢
    cases ha : a.deadline <;> cases hb : b.deadline <;> cases hc : c.deadline <;>
      simp only [ha, hb, hc] at hab hbc ⊢ <;> simp_all <;> omega⟩

/-- `uniqueTodos.sort(comparator)`: JS `Array.prototype.sort` is stable, so
it is a stable sort by the total preorder `leTodoP`. -/
def sortTodos (l : List Todo) : List Todo :=
  l.insertionSort leTodoP

/-- The merge step shared by `todoHandler.list` and `todoHandler.query`:
concatenate the personal, group and assigned query results in that order,
remove duplicate ids, sort. -/
def aggregateTodos (personal grp asg : List Todo) : List Todo :=
  sortTodos (dedupById (fun t => t.id) (personal ++ grp ++ asg))

/-- `todoHandler.list` (lines 61-111), as a function of the resolved scope:
the personal query runs when no scope result exists or the scope owner is the
user; the group and assigned queries run only when a group AND a scope result
exist, gated exactly as in the source. -/
def todoList (db : List Todo) (userId : Nat) (groupId : Option Nat)
    (scopeData : Option ScopeData) (dayFilter : Option Int) : List Todo :=
  let personal :=
    match scopeData with
    | none => TodoModel.findByUser db userId false dayFilter
    | some sd =>
      if sd.userId == some userId then TodoModel.findByUser db userId false dayFilter
      else []
  let grp :=
    match groupId, scopeData with
    | some g, some sd =>
      if sd.groupId == some g || sd.assignedUserIds.isSome then
        (if sd.groupId == some g then TodoModel.findByGroup db g false dayFilter else [])
      else []
    | _, _ => []
  let asg :=
    match groupId, scopeData with
    | some g, some sd =>
      if sd.groupId == some g || sd.assignedUserIds.isSome then
        (match sd.assignedUserIds with
         | some ids =>
           if ids.contains userId then TodoModel.findByAssignedUser db userId false dayFilter
           else []
         | none => [])
      else []
    | _, _ => []
  aggregateTodos personal grp asg

/-- `todoHandler.query` (lines 199-260): personal always; group and assigned
whenever a group context exists, scope or no scope. -/
def todoQuery (db : List Todo) (userId : Nat) (groupId : Option Nat)
    (dayFilter : Option Int) : List Todo :=
  match groupId with
  | none => aggregateTodos (TodoModel.findByUser db userId false dayFilter) [] []
  | some g =>
    aggregateTodos (TodoModel.findByUser db userId false dayFilter)
      (TodoModel.findByGroup db g false dayFilter)
      (TodoModel.findByAssignedUser db userId false dayFilter)

/-! ## Creation through the dispatch pipeline (handlers/actionRouter.ts,
handlers/todoHandler.ts, src/models/todo.ts) -/

/-- JS `x || null` on a nullable number: `0` is falsy and collapses to null. -/
def falsyNat : Option Nat → Option Nat
  | some 0 => none
  | o => o

/-- The payload of `TodoModel.create` (`CreateTodoData`). -/
structure CreateTodoData where
  userId : Option Nat
  groupId : Option Nat
  assignedUserIds : Option (List Nat)
  task : String
  priority : Option Priority
  deadline : Option Int
  createdBy : Nat
deriving DecidableEq

/-- MySQL AUTO_INCREMENT: one more than the largest id present. -/
def nextTodoId (db : List Todo) : Nat :=
  db.foldr (fun t m => max t.id m) 0 + 1

/-- The row inserted by `TodoModel.create`: `userId || null`,
`groupId || null`, `priority || 'medium'`; the assignee list is kept as
supplied (a JS array, even `[]`, is truthy).  `created_at` is
system-assigned and modelled as 0. -/
def newTodo (db : List Todo) (data : CreateTodoData) : Todo :=
  { id := nextTodoId db
    user_id := falsyNat data.userId
    group_id := falsyNat data.groupId
    assigned_user_ids := data.assignedUserIds
    task := data.task
    priority := data.priority.getD .medium
    deadline := data.deadline
    completed := false
    created_at := 0
    created_by := data.createdBy }

namespace TodoModel

/-- `TodoModel.create`: INSERT, then `findById(insertId)`. -/
def create (db : List Todo) (data : CreateTodoData) : Option Todo × List Todo :=
  let db' := db ++ [newTodo db data]
  (findById db' (nextTodoId db), db')

end TodoModel

/-- The todo-relevant part of the classifier's `parameters` bag. -/
structure TodoParams where
  task : Option String
  priority : Option Priority
  deadline : Option Int
deriving DecidableEq

/-- `todoHandler.create`: reject a missing or empty task
(`!parameters.task`), then create with ownership drawn from the optional
scope result (`scopeData?.userId || null` etc.; the assignee array passes
through untouched). -/
def todoHandlerCreate (params : TodoParams) (createdBy : Nat)
    (scopeData : Option ScopeData) (db : List Todo) :
    Except String (Option Todo × List Todo) :=
  match params.task with
  | none => .error "Task is required"
  | some t =>
    if t = "" then .error "Task is required"
    else
      .ok (TodoModel.create db
        { userId := falsyNat (scopeData.bind (·.userId))
          groupId := falsyNat (scopeData.bind (·.groupId))
          assignedUserIds := scopeData.bind (·.assignedUserIds)
          task := t
          priority := params.priority
          deadline := params.deadline
          createdBy := createdBy })

/-- A classified todo-create action as the router sees it. -/
structure TodoCreateAction where
  scope : Option Scope
  scope_users : List String
  params : TodoParams
deriving DecidableEq

/-- `actionRouter.route` for a todo create: parse the scope only when one
was supplied (otherwise the handler runs with no scope result), abort with
the scope error otherwise. -/
def routeTodoCreate (env : Env) (a : TodoCreateAction) (userId : Nat)
    (groupId : Option Nat) (db : List Todo) :
    Except String (Option Todo × List Todo) :=
  match a.scope with
  | none => todoHandlerCreate a.params userId none db
  | some sc =>
    match parseScope env sc a.scope_users userId groupId with
    | .error e => .error e
    | .ok sd => todoHandlerCreate a.params userId (some sd) db

/-- The ownership invariant claimed by the spec: at least one of owner-user,
owner-group, or a non-empty assignee set. -/
def ownershipInvariant (t : Todo) : Prop :=
  t.user_id ≠ none ∨ t.group_id ≠ none ∨ t.assigned_user_ids.getD [] ≠ []

instance (t : Todo) : Decidable (ownershipInvariant t) := by
  unfold ownershipInvariant
  infer_instance

/-! ## Partial update (src/models/todo.ts `update`) -/

/-- `UpdateTodoData`: each field is absent (`undefined`) or present with a
value; a present nullable field may carry null, hence the nested options. -/
structure UpdateTodoData where
  task : Option String
  priority : Option Priority
  deadline : Option (Option Int)
  completed : Option Bool
  assignedUserIds : Option (Option (List Nat))
deriving DecidableEq

/-- The `fields.length === 0` test: every `!== undefined` check failed. -/
def isEmptyUpd (u : UpdateTodoData) : Bool :=
  u.task.isNone && u.priority.isNone && u.deadline.isNone &&
    u.completed.isNone && u.assignedUserIds.isNone

/-- The effect of the generated `UPDATE todos SET ...` on one row: exactly
the present fields are assigned, the rest keep their stored values. -/
def applyUpd (u : UpdateTodoData) (t : Todo) : Todo :=
  { t with
    task := u.task.getD t.task
    priority := u.priority.getD t.priority
    deadline := match u.deadline with | none => t.deadline | some v => v
    completed := u.completed.getD t.completed
    assigned_user_ids :=
      match u.assignedUserIds with | none => t.assigned_user_ids | some v => v }

namespace TodoModel

/-- `TodoModel.update`: with no present field, skip the UPDATE and return
`findById`; otherwise assign the present fields on every row with the id and
return `findById` on the new state. -/
def update (db : List Todo) (id : Nat) (u : UpdateTodoData) :
    Option Todo × List Todo :=
  if isEmptyUpd u then (findById db id, db)
  else
    let db' := db.map (fun t => if t.id == id then applyUpd u t else t)
    (findById db' id, db')

end TodoModel

/-- `todoHandler.markComplete`: `TodoModel.update(id, { completed: true })`,
throwing "Todo not found" when the store reports no such row. -/
def todoMarkComplete (db : List Todo) (id : Nat) :
    Except String Todo × List Todo :=
  let r := TodoModel.update db id
    { task := none, priority := none, deadline := none,
      completed := some true, assignedUserIds := none }
  match r.1 with
  | none => (.error "Todo not found", r.2)
  | some t => (.ok t, r.2)

/-! ## Shopping items (src/models/shopping.ts, handlers/shoppingHandler.ts) -/

/-- A row of `shopping_items` with the assignee JSON column parsed. -/
structure ShoppingItem where
  id : Nat
  user_id : Option Nat
  group_id : Option Nat
  assigned_user_ids : Option (List Nat)
  item : String
  category : Option String
  amount : Option String
  purchased : Bool
  purchased_by : Option Nat
  created_at : Int
  created_by : Nat
deriving DecidableEq

/-- `UpdateShoppingItemData`, with the same absent/present encoding as for
todos. -/
structure UpdateShoppingItemData where
  item : Option String
  category : Option (Option String)
  amount : Option (Option String)
  purchased : Option Bool
  purchasedBy : Option Nat
  assignedUserIds : Option (Option (List Nat))
deriving DecidableEq

def isEmptyShoppingUpd (u : UpdateShoppingItemData) : Bool :=
  u.item.isNone && u.category.isNone && u.amount.isNone &&
    u.purchased.isNone && u.purchasedBy.isNone && u.assignedUserIds.isNone

def applyShoppingUpd (u : UpdateShoppingItemData) (i : ShoppingItem) : ShoppingItem :=
  { i with
    item := u.item.getD i.item
    category := match u.category with | none => i.category | some v => v
    amount := match u.amount with | none => i.amount | some v => v
    purchased := u.purchased.getD i.purchased
    purchased_by := match u.purchasedBy with | none => i.purchased_by | some v => some v
    assigned_user_ids :=
      match u.assignedUserIds with | none => i.assigned_user_ids | some v => v }

namespace ShoppingItemModel

def findById (db : List ShoppingItem) (id : Nat) : Option ShoppingItem :=
  db.find? (fun i => i.id == id)

/-- `ShoppingItemModel.update`, structurally identical to the todo store's. -/
def update (db : List ShoppingItem) (id : Nat) (u : UpdateShoppingItemData) :
    Option ShoppingItem × List ShoppingItem :=
  if isEmptyShoppingUpd u then (findById db id, db)
  else
    let db' := db.map (fun i => if i.id == id then applyShoppingUpd u i else i)
    (findById db' id, db')

/-- `ShoppingItemModel.markPurchased`: `UPDATE shopping_items SET purchased =
TRUE, purchased_by = ? WHERE id = ?`, reporting whether any row was
affected. -/
def markPurchased (db : List ShoppingItem) (id : Nat) (purchasedBy : Nat) :
    Bool × List ShoppingItem :=
  (db.any (fun i => i.id == id),
    db.map (fun i =>
      if i.id == id then { i with purchased := true, purchased_by := some purchasedBy }
      else i))

end ShoppingItemModel

/-- `shoppingHandler.markPurchased`, single-item-by-id branch (lines
224-241): update `{ purchased: true, purchasedBy }`, throw "Item not found"
when the store returns no row. -/
def shoppingMarkPurchasedById (db : List ShoppingItem) (id : Nat)
    (actorId : Nat) : Except String ShoppingItem × List ShoppingItem :=
  let r := ShoppingItemModel.update db id
    { item := none, category := none, amount := none,
      purchased := some true, purchasedBy := some actorId, assignedUserIds := none }
  match r.1 with
  | none => (.error "Item not found", r.2)
  | some i => (.ok i, r.2)

/-- The shopping handlers' merge (lines 92-95 of the list handler and
311-314 of the query handler): concatenation in personal, group, assigned
order, then the same duplicate removal; shopping lists are not re-sorted in
memory. -/
def aggregateShopping (personal grp asg : List ShoppingItem) : List ShoppingItem :=
  dedupById (fun i => i.id) (personal ++ grp ++ asg)

/-! ## Stored JSON assignee lists (src/models/todo.ts `create`/`findById`)
and their round trip (claim C7) -/

def digitChar : Nat → Char
  | 0 => '0'
  | 1 => '1'
  | 2 => '2'
  | 3 => '3'
  | 4 => '4'
  | 5 => '5'
  | 6 => '6'
  | 7 => '7'
  | 8 => '8'
  | _ => '9'

def digitVal (c : Char) : Option Nat :=
  if '0' ≤ c ∧ c ≤ '9' then some (c.toNat - 48) else none

/-- The decimal digits of `n`, least significant first (empty for 0). -/
def toDigitsRev : Nat → List Char
  | 0 => []
  | n + 1 => digitChar ((n + 1) % 10) :: toDigitsRev ((n + 1) / 10)
decreasing_by exact Nat.div_lt_self (Nat.succ_pos n) (by omega)

/-- JS `String(n)` for a natural number. -/
def natToChars (n : Nat) : List Char :=
  if n = 0 then ['0'] else (toDigitsRev n).reverse

/-- Read back a least-significant-first digit list. -/
def ofDigitsRev : List Char → Option Nat
  | [] => some 0
  | c :: r =>
    match digitVal c, ofDigitsRev r with
    | some d, some v => some (d + 10 * v)
    | _, _ => none

/-- Parse a non-empty most-significant-first digit string. -/
def parseNatChars (l : List Char) : Option Nat :=
  if l = [] then none else ofDigitsRev l.reverse

/-- `JSON.stringify` of a number array: the items joined by commas. -/
def joinComma : List (List Char) → List Char
  | [] => []
  | [p] => p
  | p :: ps => p ++ ',' :: joinComma ps

/-- Split on a separator character (the shape `JSON.parse` recovers from a
canonical number-array encoding). -/
def splitOnChar (sep : Char) : List Char → List (List Char)
  | [] => [[]]
  | c :: r =>
    if c = sep then [] :: splitOnChar sep r
    else
      match splitOnChar sep r with
      | s :: ss => (c :: s) :: ss
      | [] => [[c]]

def parseAllNat : List (List Char) → Option (List Nat)
  | [] => some []
  | p :: ps =>
    match parseNatChars p, parseAllNat ps with
    | some n, some ns => some (n :: ns)
    | _, _ => none

/-- `JSON.stringify(assignedUserIds)`: `[` , comma-joined decimal ids, `]`. -/
def serializeNatList (l : List Nat) : String :=
  String.mk ('[' :: (joinComma (l.map natToChars) ++ [']']))

/-- `JSON.parse` on a stored assignee column, to the extent it is exercised:
a bracketed comma-separated list of decimal naturals.  On text that is not of
that shape the model answers `none` (the JS code would throw; `create` and
`update` only ever store canonical encodings). -/
def parseNatList (s : String) : Option (List Nat) :=
  match s.data with
  | c :: rest =>
    if c = '[' then
      match rest.reverse with
      | d :: innerRev =>
        if d = ']' then
          let inner := innerRev.reverse
          if inner = [] then some [] else parseAllNat (splitOnChar ',' inner)
        else none
      | [] => none
    else none
  | [] => none

/-- A raw row of the `todos` table: the `assigned_user_ids` column is the
stored JSON text. -/
structure TodoRow where
  id : Nat
  user_id : Option Nat
  group_id : Option Nat
  assigned_user_ids : Option String
  task : String
  priority : Priority
  deadline : Option Int
  completed : Bool
  created_by : Nat
deriving DecidableEq

/-- A `TodoWithParsedIds` as `findById` returns it. -/
structure TodoRowParsed where
  id : Nat
  user_id : Option Nat
  group_id : Option Nat
  assigned_user_ids : Option (List Nat)
  task : String
  priority : Priority
  deadline : Option Int
  completed : Bool
  created_by : Nat
deriving DecidableEq

def nextTodoRowId (db : List TodoRow) : Nat :=
  db.foldr (fun t m => max t.id m) 0 + 1

namespace TodoRowModel

/-- `TodoModel.create` at the storage level: the assignee list is stored as
`JSON.stringify(assignedUserIds)` (or SQL NULL); `userId || null`,
`groupId || null`, `priority || 'medium'` as in the source. -/
def create (db : List TodoRow) (data : CreateTodoData) : Nat × List TodoRow :=
  let nid := nextTodoRowId db
  (nid, db ++ [{ id := nid
                 user_id := falsyNat data.userId
                 group_id := falsyNat data.groupId
                 assigned_user_ids := data.assignedUserIds.map serializeNatList
                 task := data.task
                 priority := data.priority.getD .medium
                 deadline := data.deadline
                 completed := false
                 created_by := data.createdBy }])

/-- `TodoModel.findById`: `SELECT * WHERE id = ?`; a truthy (non-null,
non-empty) assignee column is `JSON.parse`d, otherwise the parsed record
carries null. -/
def findById (db : List TodoRow) (id : Nat) : Option TodoRowParsed :=
  match db.find? (fun r => r.id == id) with
  | none => none
  | some r =>
    let a :=
      match r.assigned_user_ids with
      | some s => if s = "" then none else parseNatList s
      | none => none
    some { id := r.id
           user_id := r.user_id
           group_id := r.group_id
           assigned_user_ids := a
           task := r.task
           priority := r.priority
           deadline := r.deadline
           completed := r.completed
           created_by := r.created_by }

end TodoRowModel

/-! ## The scheduler's upcoming-deadline band
(src/services/scheduler.ts `checkUpcomingDeadlines` / `checkUpcomingEvents`) -/

/-- `targetTime = new Date(now.getTime() + 15 * 60 * 1000)`. -/
def upcomingTarget (now : Int) : Int := now + 15 * 60 * 1000

/-- The selection test of both per-minute checks:
`diffMinutes = Math.abs((deadline - targetTime) / 60000)` and
`diffMinutes >= 14 && diffMinutes <= 16` (in exact arithmetic on
millisecond-integer timestamps). -/
def upcomingBandFilter (now deadline : Int) : Bool :=
  let diffMs := (deadline - upcomingTarget now).natAbs
  decide (14 * 60000 ≤ diffMs) && decide (diffMs ≤ 16 * 60000)

/-- `checkUpcomingDeadlines`' per-todo predicate: a todo with no deadline is
never selected, otherwise the band test runs on its deadline.
(`checkUpcomingEvents` applies the same band to `event.start_time`.) -/
def checkUpcomingDeadlinesSelects (now : Int) (t : Todo) : Bool :=
  match t.deadline with
  | none => false
  | some d => upcomingBandFilter now d

/-! ## Concrete fixtures used by counterexamples and witnesses -/

/-- A group todo of group 5: high priority, deadline at 100 ms. -/
def gTodo : Todo :=
  ⟨2, none, some 5, none, "group task", .high, some 100, false, 0, 3⟩

/-- A todo assigned to user 10. -/
def aTodo : Todo :=
  ⟨3, none, none, some [10], "assigned task", .high, some 100, false, 0, 3⟩

/-- A personal todo of user 10: low priority, same deadline as `gTodo`. -/
def pTodo : Todo :=
  ⟨1, some 10, none, none, "personal task", .low, some 100, false, 0, 10⟩

/-- The record produced by an unscoped dispatch create (claim C4). -/
def ownerlessTodo : Todo :=
  ⟨1, none, none, none, "buy milk", .medium, none, false, 0, 7⟩

/-- An environment in which the acting user (id 1) is named "alice". -/
def envSelf : Env := ⟨[⟨1, some "alice", none, none⟩], []⟩

/-- The record produced by a "me"-scoped create for user 7 (claim C4's
witness). -/
def meTodo : Todo :=
  ⟨1, some 7, none, none, "call mom", .medium, none, false, 0, 7⟩

/-- A first partial update touching only the task text (claim C6). -/
def u1Fix : UpdateTodoData :=
  ⟨some "new task", none, none, none, none⟩

/-- A second partial update touching only the priority (claim C6). -/
def u2Fix : UpdateTodoData :=
  ⟨none, some .high, none, none, none⟩

/-- A single stored shopping item, id 1 (claim C9). -/
def sItemFix : ShoppingItem :=
  ⟨1, some 10, none, none, "milk", some "dairy", none, false, none, 0, 10⟩

/-- A todo whose deadline is exactly 15 minutes after time 0 (claim C10). -/
def t15Todo : Todo :=
  ⟨1, some 10, none, none, "due in 15", .medium, some (15 * 60000), false, 0, 10⟩

/-- A todo whose deadline is 30 minutes after time 0 (claim C10). -/
def t30Todo : Todo :=
  ⟨2, some 10, none, none, "due in 30", .medium, some (30 * 60000), false, 0, 10⟩

/-- A todo whose deadline is exactly time 0 (claim C10). -/
def tNowTodo : Todo :=
  ⟨3, some 10, none, none, "due now", .medium, some 0, false, 0, 10⟩

/-- A create payload carrying an assignee list and an explicit priority
(claim C7's witness). -/
def dataFix : CreateTodoData :=
  ⟨none, none, some [1, 10, 203], "shared task", some .high, some 777, 1⟩

/-! ## Claims C1 and C8 (scope resolution) -/

/-- C1 counterexample: when the acting user's own name is among the supplied
name references, `parseScope "me_and_x"` returns the acting user's id twice:
the assignee list is `[1, 1]`, which does contain a duplicate id, refuting
the claim's "containing no duplicate ids — even when the acting user's own
name appears among the supplied name references". -/
theorem me_and_x_duplicate_acting_user :
    parseScope envSelf .me_and_x ["alice"] 1 none =
      .ok ⟨none, none, some [1, 1]⟩ ∧
    ¬ ((1 : Nat) :: resolveUserNames envSelf none ["alice"]).Nodup := by
  constructor
  · decide
  · decide

/-- C1 (amended): a "me_and_x" call with at least one resolvable name
succeeds with owner = none, group = the current group (if any), and an
assignee list whose first element is the acting user followed by the resolved
ids in order.  The list is not deduplicated, so the acting user's id appears
twice whenever the acting user's own name is among the resolvable supplied
names. -/
theorem parseScope_me_and_x_ok (env : Env) (us : List String) (uid : Nat)
    (gid : Option Nat) (hr : resolveUserNames env gid us ≠ []) :
    parseScope env .me_and_x us uid gid =
      .ok ⟨none, gid, some (uid :: resolveUserNames env gid us)⟩ := by
  have hus : us ≠ [] := by
    intro h
    subst h
    simp [resolveUserNames] at hr
  simp only [parseScope, if_neg hus, if_neg hr]

/-- Witness for C1's amended theorem at a concrete environment. -/
theorem parseScope_me_and_x_ok_witness :
    parseScope ⟨[⟨2, some "bob", none, none⟩], []⟩ .me_and_x ["bob"] 1 none =
      .ok ⟨none, none, some [1, 2]⟩ := by
  have h := parseScope_me_and_x_ok ⟨[⟨2, some "bob", none, none⟩], []⟩
    ["bob"] 1 none (by decide)
  rw [h]
  decide

/-- C8: a "me_and_x" call with an empty name list fails with a ScopeError,
and a call in which no supplied name resolves fails with a ScopeError whose
message names the unresolved inputs (the joined original name list).  The
resolver is read-only by construction (it is a pure function of `Env`), so no
write is performed. -/
theorem parseScope_me_and_x_failure (env : Env) (us : List String) (uid : Nat)
    (gid : Option Nat) :
    (us = [] →
      parseScope env .me_and_x us uid gid =
        .error "\"me_and_x\" scope requires at least one other user") ∧
    (us ≠ [] → resolveUserNames env gid us = [] →
      parseScope env .me_and_x us uid gid =
        .error ("Could not find users: " ++ String.intercalate ", " us)) := by
  constructor
  · intro h
    simp [parseScope, h]
  · intro hne hr
    simp only [parseScope, if_neg hne, if_pos hr]

/-- Witness for C8 at concrete inputs: the empty list, and a single
unresolvable name. -/
theorem parseScope_me_and_x_failure_witness :
    parseScope envSelf .me_and_x [] 1 none =
      .error "\"me_and_x\" scope requires at least one other user" ∧
    parseScope envSelf .me_and_x ["Ghost"] 1 none =
      .error ("Could not find users: " ++ String.intercalate ", " ["Ghost"]) := by
  constructor
  · exact (parseScope_me_and_x_failure envSelf [] 1 none).1 rfl
  · exact (parseScope_me_and_x_failure envSelf ["Ghost"] 1 none).2
      (by decide) (by decide)

/-! ## Deduplication lemmas (the handlers' `filter`/`findIndex` idiom) -/

/-- `find?` returns exactly the element sitting at the `findIdx` position. -/
theorem find?_eq_some_iff_getFindIdx {α : Type} (p : α → Bool) :
    ∀ (l : List α) (x : α), l.find? p = some x ↔ l[l.findIdx p]? = some x := by
  intro l
  induction l with
  | nil => intro x; simp
  | cons a r ih =>
    intro x
    by_cases hpa : p a
    · rw [List.find?_cons_of_pos _ hpa, List.findIdx_cons]
      simp [hpa]
    · rw [List.find?_cons_of_neg _ hpa, List.findIdx_cons]
      simp only [hpa, cond_false, List.getElem?_cons_succ]
      exact ih x

/-- Membership in the deduplicated list characterised: exactly the elements
that are the first of their id in the input survive. -/
theorem mem_dedupById_iff {α : Type} (getId : α → Nat) (l : List α) (x : α) :
    x ∈ dedupById getId l ↔ l.find? (fun e => getId e == getId x) = some x := by
  unfold dedupById
  rw [List.mem_map]
  constructor
  · rintro ⟨p, hp, rfl⟩
    rw [List.mem_filter] at hp
    obtain ⟨hmem, hP⟩ := hp
    have hidx : l.findIdx (fun e => getId e == getId p.2) = p.1 := by
      simpa using hP
    have hget : l[p.1]? = some p.2 := by
      obtain ⟨i, y⟩ := p
      exact List.mk_mem_enum_iff_getElem?.mp hmem
    rw [find?_eq_some_iff_getFindIdx, hidx]
    exact hget
  · intro h
    have hget := (find?_eq_some_iff_getFindIdx _ l x).mp h
    refine ⟨(l.findIdx (fun e => getId e == getId x), x), ?_, rfl⟩
    rw [List.mem_filter]
    exact ⟨List.mk_mem_enum_iff_getElem?.mpr hget, by simp⟩

theorem le_fst_of_mem_enumFrom {α : Type} :
    ∀ (l : List α) (n : Nat) (p : Nat × α), p ∈ l.enumFrom n → n ≤ p.1 := by
  intro l
  induction l with
  | nil => intro n p h; simp at h
  | cons a r ih =>
    intro n p h
    rw [List.enumFrom_cons, List.mem_cons] at h
    rcases h with h | h
    · subst h; exact Nat.le_refl n
    · exact Nat.le_of_succ_le (ih (n + 1) p h)

theorem pairwise_fst_lt_enumFrom {α : Type} :
    ∀ (l : List α) (n : Nat), (l.enumFrom n).Pairwise (fun p q => p.1 < q.1) := by
  intro l
  induction l with
  | nil => intro n; simp
  | cons a r ih =>
    intro n
    rw [List.enumFrom_cons]
    refine List.Pairwise.cons ?_ (ih (n + 1))
    intro q hq
    have := le_fst_of_mem_enumFrom r (n + 1) q hq
    simp only []
    omega

/-- The deduplicated list never holds two entries with the same id. -/
theorem dedupById_ids_nodup {α : Type} (getId : α → Nat) (l : List α) :
    ((dedupById getId l).map getId).Nodup := by
  unfold dedupById
  rw [List.map_map]
  have henum : l.enum.Pairwise (fun p q : Nat × α => p.1 < q.1) :=
    pairwise_fst_lt_enumFrom l 0
  have hfilter :=
    List.Pairwise.sublist
      (List.filter_sublist (p := fun p => l.findIdx (fun e => getId e == getId p.2) == p.1)
        l.enum) henum
  have hids :
      (l.enum.filter
          (fun p => l.findIdx (fun e => getId e == getId p.2) == p.1)).Pairwise
        (fun p q => getId p.2 ≠ getId q.2) := by
    refine hfilter.imp_of_mem ?_
    intro p q hp hq hlt heq
    rw [List.mem_filter] at hp hq
    have hip : l.findIdx (fun e => getId e == getId p.2) = p.1 := by
      simpa using hp.2
    have hiq : l.findIdx (fun e => getId e == getId q.2) = q.1 := by
      simpa using hq.2
    have hfun : (fun e => getId e == getId p.2) = (fun e => getId e == getId q.2) := by
      funext e
      rw [heq]
    rw [hfun, hiq] at hip
    omega
  exact List.pairwise_map.mpr hids

/-! ## Claims C2, C3 and C5 (aggregation) -/

/-- C2 counterexample: user 10 has group context (group 5); the database
holds a group-5 todo and a todo assigned to user 10, both visible to the
group and assigned dimensions; yet the unscoped list (scope result absent)
returns nothing at all — the aggregation queried only the personal
dimension, refuting "queries all three ownership dimensions ... even when no
explicit scope was supplied". -/
theorem unscoped_list_omits_group_records :
    todoList [gTodo, aTodo] 10 (some 5) none none = [] ∧
    TodoModel.findByGroup [gTodo, aTodo] 5 false none = [gTodo] ∧
    TodoModel.findByAssignedUser [gTodo, aTodo] 10 false none = [aTodo] := by
  refine ⟨by decide, by decide, by decide⟩

/-- C2 (amended): the query path does aggregate all three ownership
dimensions whenever a group context exists, and every record any dimension
returns is represented (by id) in the query output; the list path with no
scope result aggregates the personal dimension only — group and assigned
records require an explicit scope. -/
theorem list_query_dimensions (db : List Todo) (u g : Nat) (d : Option Int) :
    todoList db u (some g) none d =
      aggregateTodos (TodoModel.findByUser db u false d) [] [] ∧
    todoQuery db u (some g) d =
      aggregateTodos (TodoModel.findByUser db u false d)
        (TodoModel.findByGroup db g false d)
        (TodoModel.findByAssignedUser db u false d) ∧
    (∀ t ∈ TodoModel.findByUser db u false d ++ TodoModel.findByGroup db g false d ++
        TodoModel.findByAssignedUser db u false d,
      ∃ r, r ∈ todoQuery db u (some g) d ∧ r.id = t.id) := by
  refine ⟨rfl, rfl, ?_⟩
  intro t ht
  set m := TodoModel.findByUser db u false d ++ TodoModel.findByGroup db g false d ++
    TodoModel.findByAssignedUser db u false d with hm
  rcases hfind : m.find? (fun e => e.id == t.id) with _ | r
  · rw [List.find?_eq_none] at hfind
    exact absurd (by simp) (hfind t ht)
  · refine ⟨r, ?_, ?_⟩
    · have hrid : r.id = t.id := by
        have := List.find?_some hfind
        simpa using this
      have hr : r ∈ dedupById (fun t => t.id) m := by
        rw [mem_dedupById_iff]
        have hfun :
            (fun e : Todo => e.id == r.id) = (fun e : Todo => e.id == t.id) := by
          funext e
          rw [hrid]
        simpa [hfun] using hfind
      show r ∈ todoQuery db u (some g) d
      unfold todoQuery aggregateTodos sortTodos
      rw [List.mem_insertionSort]
      exact hr
    · have := List.find?_some hfind
      simpa using this

/-- Witness for C2's amended theorem at a concrete database. -/
theorem list_query_dimensions_witness :
    (∃ r, r ∈ todoQuery [gTodo, aTodo] 10 (some 5) none ∧ r.id = gTodo.id) ∧
    todoList [gTodo, aTodo] 10 (some 5) none none =
      aggregateTodos (TodoModel.findByUser [gTodo, aTodo] 10 false none) [] [] := by
  obtain h := list_query_dimensions [gTodo, aTodo] 10 5 none
  exact ⟨h.2.2 gTodo (by decide), h.1⟩

/-- C3: for any results of the personal, group and assigned source queries,
the aggregated output contains at most one entry per record id, and every
surviving entry is the first copy of its id in
personal-then-group-then-assigned concatenation order; likewise for the
shopping aggregation. -/
theorem aggregate_dedup_first_wins (p g a : List Todo)
    (sp sg sa : List ShoppingItem) :
    ((aggregateTodos p g a).map (fun t => t.id)).Nodup ∧
    (∀ t ∈ aggregateTodos p g a,
      (p ++ g ++ a).find? (fun e => e.id == t.id) = some t) ∧
    ((aggregateShopping sp sg sa).map (fun i => i.id)).Nodup ∧
    (∀ i ∈ aggregateShopping sp sg sa,
      (sp ++ sg ++ sa).find? (fun e => e.id == i.id) = some i) := by
  refine ⟨?_, ?_, ?_, ?_⟩
  · unfold aggregateTodos sortTodos
    have hperm :
        List.Perm ((dedupById (fun t => t.id) (p ++ g ++ a)).insertionSort leTodoP)
          (dedupById (fun t => t.id) (p ++ g ++ a)) :=
      List.perm_insertionSort leTodoP _
    exact ((hperm.map _).nodup_iff).mpr (dedupById_ids_nodup _ _)
  · intro t ht
    have : t ∈ dedupById (fun t => t.id) (p ++ g ++ a) := by
      unfold aggregateTodos sortTodos at ht
      rwa [List.mem_insertionSort] at ht
    exact (mem_dedupById_iff (fun t => t.id) _ t).mp this
  · show ((dedupById (fun i => i.id) (sp ++ sg ++ sa)).map (fun i => i.id)).Nodup
    exact dedupById_ids_nodup _ _
  · intro i hi
    have hmem : i ∈ dedupById (fun i => i.id) (sp ++ sg ++ sa) := hi
    exact (mem_dedupById_iff (fun i => i.id) _ i).mp hmem

/-- Witness for C3 at concrete source lists. -/
theorem aggregate_dedup_first_wins_witness :
    ((aggregateTodos [pTodo] [gTodo] []).map (fun t => t.id)).Nodup ∧
    ([pTodo] ++ [gTodo] ++ ([] : List Todo)).find?
      (fun e => e.id == pTodo.id) = some pTodo := by
  obtain h := aggregate_dedup_first_wins [pTodo] [gTodo] [] [] [] []
  exact ⟨h.1, h.2.1 pTodo (by decide)⟩

/-- C5 counterexample: the database holds a personal low-priority todo and a
group high-priority todo with equal deadlines; the aggregated listing puts
the low-priority task first, refuting "among tasks with deadlines the order
is deadline ascending, then priority descending".  (The in-memory comparator
never consults priority or creation time when both tasks have deadlines.) -/
theorem equal_deadline_tie_ignores_priority :
    todoQuery [pTodo, gTodo] 10 (some 5) none = [pTodo, gTodo] ∧
    pTodo.deadline = gTodo.deadline ∧
    priorityRank pTodo.priority < priorityRank gTodo.priority := by
  refine ⟨by decide, by decide, by decide⟩

/-- C5 (amended): every aggregated task listing is sorted by the handler's
comparator: all tasks with a deadline precede all tasks without one, tasks
with deadlines are in ascending deadline order, and undated tasks are in
descending priority order; ties (equal deadlines, or equal priority among
undated tasks) keep the first-encountered merge order, and creation time is
not consulted by the in-memory sort. -/
theorem aggregate_todos_sorted (p g a : List Todo) :
    List.Sorted leTodoP (aggregateTodos p g a) := by
  unfold aggregateTodos sortTodos
  exact List.sorted_insertionSort leTodoP _

/-! ## Store helper lemmas (fresh ids, id-targeted UPDATE) -/

/-- A list member's id is bounded by the running maximum. -/
theorem mem_le_foldr_max {α : Type} (idOf : α → Nat) :
    ∀ (l : List α) (x : α), x ∈ l →
      idOf x ≤ l.foldr (fun t m => max (idOf t) m) 0 := by
  intro l
  induction l with
  | nil => intro x h; simp at h
  | cons a r ih =>
    intro x h
    rcases List.mem_cons.mp h with h | h
    · subst h
      exact Nat.le_max_left _ _
    · exact Nat.le_trans (ih x h) (Nat.le_max_right _ _)

/-- `find?` skips a prefix on which the predicate is everywhere false. -/
theorem find?_append_of_none {α : Type} (p : α → Bool) :
    ∀ (l1 l2 : List α), (∀ x ∈ l1, p x = false) →
      (l1 ++ l2).find? p = l2.find? p := by
  intro l1
  induction l1 with
  | nil => intro l2 _; rfl
  | cons a r ih =>
    intro l2 h
    rw [List.cons_append, List.find?_cons_of_neg, ih l2 (fun x hx => h x (by simp [hx]))]
    simp [h a (by simp)]

/-- `TodoModel.create` finds the row it just inserted: the AUTO_INCREMENT
id is fresh. -/
theorem create_eq (db : List Todo) (data : CreateTodoData) :
    TodoModel.create db data = (some (newTodo db data), db ++ [newTodo db data]) := by
  unfold TodoModel.create TodoModel.findById
  dsimp only
  have hfresh : ∀ x ∈ db, (x.id == nextTodoId db) = false := by
    intro x hx
    have hle : x.id ≤ db.foldr (fun t m => max t.id m) 0 :=
      mem_le_foldr_max (fun t : Todo => t.id) db x hx
    have hlt : x.id < nextTodoId db := by
      unfold nextTodoId
      omega
    simp [Nat.ne_of_lt hlt]
  rw [find?_append_of_none _ db _ hfresh]
  simp [newTodo]

/-! ## Claim C4 (ownership invariant of dispatched creates) -/

/-- C4 counterexample: a todo create dispatched with no scope stores a
record whose owner-user, owner-group and assignee set are all empty — the
ownership invariant is violated by every unscoped create. -/
theorem unscoped_create_ownerless :
    routeTodoCreate envSelf ⟨none, [], ⟨some "buy milk", none, none⟩⟩ 7 none [] =
      .ok (some ownerlessTodo, [ownerlessTodo]) ∧
    ¬ ownershipInvariant ownerlessTodo := by
  refine ⟨by decide, by decide⟩

/-- C4 (amended): whenever a scope result is attached to the create — that
is, whenever scope resolution ran and succeeded — the stored record does
satisfy the ownership invariant: "me" sets the owner-user, "all_of_us" sets
the owner-group, and "me_and_x" sets a non-empty assignee list headed by the
acting user.  Only creates with no supplied scope store a record with no
ownership at all. -/
theorem scoped_create_ownership_invariant (env : Env) (sc : Scope)
    (us : List String) (uid : Nat) (gid : Option Nat) (sd : ScopeData)
    (params : TodoParams) (db : List Todo) (r : Option Todo) (db' : List Todo)
    (huid : 0 < uid) (hgid : gid ≠ some 0)
    (hps : parseScope env sc us uid gid = .ok sd)
    (hc : todoHandlerCreate params uid (some sd) db = .ok (r, db'))
    (t : Todo) (ht : r = some t) : ownershipInvariant t := by
  subst ht
  unfold todoHandlerCreate at hc
  rcases hp : params.task with _ | s
  · rw [hp] at hc
    simp at hc
  · rw [hp] at hc
    dsimp only at hc
    by_cases hs : s = ""
    · rw [if_pos hs] at hc
      simp at hc
    · rw [if_neg hs, create_eq] at hc
      have hpair := Except.ok.inj hc
      have ht' := Option.some.inj (congrArg Prod.fst hpair)
      subst ht'
      unfold ownershipInvariant newTodo
      cases sc with
      | me =>
        have hsd : ScopeData.mk (some uid) none none = sd := Except.ok.inj hps
        subst hsd
        left
        rcases uid with _ | n
        · omega
        · simp [falsyNat]
      | all_of_us =>
        rcases gid with _ | g
        · simp only [parseScope] at hps
          exact absurd hps (by simp)
        · simp only [parseScope] at hps
          have hsd : ScopeData.mk none (some g) none = sd := Except.ok.inj hps
          subst hsd
          have hg : g ≠ 0 := by
            intro h
            exact hgid (by rw [h])
          right; left
          rcases g with _ | m
          · exact absurd rfl hg
          · simp [falsyNat]
      | me_and_x =>
        simp only [parseScope] at hps
        by_cases hus : us = []
        · rw [if_pos hus] at hps
          simp at hps
        · rw [if_neg hus] at hps
          by_cases hres : resolveUserNames env gid us = []
          · rw [if_pos hres] at hps
            simp at hps
          · rw [if_neg hres] at hps
            have hsd :
                ScopeData.mk none gid (some (uid :: resolveUserNames env gid us)) = sd :=
              Except.ok.inj hps
            subst hsd
            right; right
            simp

/-- Witness for C4's amended theorem: a "me"-scoped create for user 7. -/
theorem scoped_create_ownership_invariant_witness : ownershipInvariant meTodo :=
  scoped_create_ownership_invariant envSelf .me [] 7 none ⟨some 7, none, none⟩
    ⟨some "call mom", none, none⟩ [] (some meTodo) [meTodo]
    (by decide) (by decide) (by decide) (by decide) meTodo rfl

/-! ## Claim C6 (partial update frame) -/

theorem applyUpd_empty (u : UpdateTodoData) (t : Todo)
    (h : isEmptyUpd u = true) : applyUpd u t = t := by
  rcases u with ⟨ut, up, ud, uc, ua⟩
  unfold isEmptyUpd at h
  simp only [Bool.and_eq_true, Option.isNone_iff_eq_none] at h
  obtain ⟨⟨⟨⟨h1, h2⟩, h3⟩, h4⟩, h5⟩ := h
  subst h1 h2 h3 h4 h5
  rfl

/-- An id-targeted UPDATE commutes with `findById`: the found row (if any)
comes back with the update applied. -/
theorem findById_map_update (db : List Todo) (id : Nat) (u : UpdateTodoData) :
    TodoModel.findById (db.map (fun t => if t.id == id then applyUpd u t else t)) id =
      (TodoModel.findById db id).map (applyUpd u) := by
  induction db with
  | nil => rfl
  | cons a r ih =>
    simp only [List.map_cons]
    unfold TodoModel.findById at ih ⊢
    by_cases ha : (a.id == id) = true
    · rw [if_pos ha]
      have h1 : List.find? (fun t : Todo => t.id == id)
          (applyUpd u a :: r.map (fun t => if t.id == id then applyUpd u t else t)) =
          some (applyUpd u a) :=
        List.find?_cons_of_pos _ (show ((applyUpd u a).id == id) = true from ha)
      have h2 : List.find? (fun t : Todo => t.id == id) (a :: r) = some a :=
        List.find?_cons_of_pos _ ha
      rw [h1, h2]
      rfl
    · rw [if_neg ha]
      have h1 : List.find? (fun t : Todo => t.id == id)
          (a :: r.map (fun t => if t.id == id then applyUpd u t else t)) =
          List.find? (fun t : Todo => t.id == id)
            (r.map (fun t => if t.id == id then applyUpd u t else t)) :=
        List.find?_cons_of_neg _ ha
      have h2 : List.find? (fun t : Todo => t.id == id) (a :: r) =
          List.find? (fun t : Todo => t.id == id) r :=
        List.find?_cons_of_neg _ ha
      rw [h1, h2]
      exact ih

/-- One update step, described through `applyUpd`: both the returned record
and the record subsequently readable from the store are the found row with
exactly the present fields overwritten. -/
theorem update_step (db : List Todo) (id : Nat) (u : UpdateTodoData) (t : Todo)
    (h : TodoModel.findById db id = some t) :
    (TodoModel.update db id u).1 = some (applyUpd u t) ∧
    TodoModel.findById (TodoModel.update db id u).2 id = some (applyUpd u t) := by
  unfold TodoModel.update
  by_cases he : isEmptyUpd u = true
  · rw [if_pos he, applyUpd_empty u t he]
    dsimp only
    rw [h]
    exact ⟨rfl, rfl⟩
  · rw [if_neg he]
    dsimp only
    rw [findById_map_update, h]
    exact ⟨rfl, rfl⟩

/-- C6: `update` changes exactly the fields present in the partial payload:
the store returns the current record with only those fields overwritten
(each absent field keeps its stored value, each present field takes the
supplied value); an all-absent update leaves the store untouched and returns
the current record; and a second update on the new state applies on top of
the first, so two updates with disjoint fields leave both changes in
place. -/
theorem todoModel_update_frame (db : List Todo) (id : Nat)
    (u1 u2 : UpdateTodoData) (t : Todo)
    (h : TodoModel.findById db id = some t) :
    (TodoModel.update db id u1).1 = some (applyUpd u1 t) ∧
    (isEmptyUpd u1 = true → TodoModel.update db id u1 = (some t, db)) ∧
    (u1.task = none → (applyUpd u1 t).task = t.task) ∧
    (u1.priority = none → (applyUpd u1 t).priority = t.priority) ∧
    (u1.deadline = none → (applyUpd u1 t).deadline = t.deadline) ∧
    (u1.completed = none → (applyUpd u1 t).completed = t.completed) ∧
    (u1.assignedUserIds = none →
      (applyUpd u1 t).assigned_user_ids = t.assigned_user_ids) ∧
    (∀ v, u1.task = some v → (applyUpd u1 t).task = v) ∧
    (∀ v, u1.priority = some v → (applyUpd u1 t).priority = v) ∧
    (∀ v, u1.deadline = some v → (applyUpd u1 t).deadline = v) ∧
    (∀ v, u1.completed = some v → (applyUpd u1 t).completed = v) ∧
    (∀ v, u1.assignedUserIds = some v → (applyUpd u1 t).assigned_user_ids = v) ∧
    (TodoModel.update (TodoModel.update db id u1).2 id u2).1 =
      some (applyUpd u2 (applyUpd u1 t)) := by
  obtain ⟨h1, h2⟩ := update_step db id u1 t h
  refine ⟨h1, ?_, ?_, ?_, ?_, ?_, ?_, ?_, ?_, ?_, ?_, ?_, ?_⟩
  · intro he
    unfold TodoModel.update
    rw [if_pos he, h]
  · intro hv; simp [applyUpd, hv]
  · intro hv; simp [applyUpd, hv]
  · intro hv; simp [applyUpd, hv]
  · intro hv; simp [applyUpd, hv]
  · intro hv; simp [applyUpd, hv]
  · intro v hv; simp [applyUpd, hv]
  · intro v hv; simp [applyUpd, hv]
  · intro v hv; simp [applyUpd, hv]
  · intro v hv; simp [applyUpd, hv]
  · intro v hv; simp [applyUpd, hv]
  · exact (update_step _ id u2 _ h2).1

/-- Witness for C6: update the task text, then the priority, on a
one-record store. -/
theorem todoModel_update_frame_witness :
    (TodoModel.update [pTodo] 1 u1Fix).1 = some (applyUpd u1Fix pTodo) ∧
    (applyUpd u1Fix pTodo).priority = pTodo.priority ∧
    (applyUpd u1Fix pTodo).task = "new task" ∧
    (TodoModel.update (TodoModel.update [pTodo] 1 u1Fix).2 1 u2Fix).1 =
      some (applyUpd u2Fix (applyUpd u1Fix pTodo)) := by
  obtain h := todoModel_update_frame [pTodo] 1 u1Fix u2Fix pTodo (by decide)
  exact ⟨h.1, h.2.2.2.1 rfl, h.2.2.2.2.2.2.2.1 "new task" rfl,
    h.2.2.2.2.2.2.2.2.2.2.2.2⟩

/-! ## Claim C9 (not-found mark operations) -/

/-- An id-targeted map that matches nothing is the identity. -/
theorem map_if_no_match {α : Type} (idOf : α → Nat) (id : Nat) (f : α → α) :
    ∀ (l : List α), (∀ x ∈ l, idOf x ≠ id) →
      l.map (fun x => if idOf x == id then f x else x) = l := by
  intro l
  induction l with
  | nil => intro; rfl
  | cons a r ih =>
    intro h
    rw [List.map_cons, if_neg (by simpa using h a (by simp)),
      ih (fun x hx => h x (by simp [hx]))]

/-- C9: `markPurchased` on an id held by no stored item fails with the
"Item not found" error and leaves the store exactly as it was (no record
created, modified or deleted, so the item count is unchanged); the bare
store-level `markPurchased` reports no affected row and also leaves the
store unchanged; and `markComplete` behaves the same way on the todo
store. -/
theorem markPurchased_not_found (db : List ShoppingItem) (tdb : List Todo)
    (id actor : Nat) (hs : ∀ i ∈ db, i.id ≠ id) (ht : ∀ t ∈ tdb, t.id ≠ id) :
    shoppingMarkPurchasedById db id actor = (.error "Item not found", db) ∧
    ShoppingItemModel.markPurchased db id actor = (false, db) ∧
    todoMarkComplete tdb id = (.error "Todo not found", tdb) := by
  have hmap : db.map (fun i =>
      if i.id == id then applyShoppingUpd
        ⟨none, none, none, some true, some actor, none⟩ i else i) = db :=
    map_if_no_match (fun i : ShoppingItem => i.id) id _ db hs
  have hfind : ShoppingItemModel.findById db id = none := by
    unfold ShoppingItemModel.findById
    rw [List.find?_eq_none]
    intro x hx
    simpa using hs x hx
  refine ⟨?_, ?_, ?_⟩
  · unfold shoppingMarkPurchasedById ShoppingItemModel.update
    rw [if_neg (by simp [isEmptyShoppingUpd])]
    dsimp only
    rw [hmap, hfind]
  · unfold ShoppingItemModel.markPurchased
    rw [Prod.mk.injEq]
    refine ⟨?_, map_if_no_match (fun i : ShoppingItem => i.id) id _ db hs⟩
    rw [List.any_eq_false]
    intro x hx
    simpa using hs x hx
  · have hmapt : tdb.map (fun t =>
        if t.id == id then applyUpd
          ⟨none, none, none, some true, none⟩ t else t) = tdb :=
      map_if_no_match (fun t : Todo => t.id) id _ tdb ht
    have hfindt : TodoModel.findById tdb id = none := by
      unfold TodoModel.findById
      rw [List.find?_eq_none]
      intro x hx
      simpa using ht x hx
    unfold todoMarkComplete TodoModel.update
    rw [if_neg (by simp [isEmptyUpd])]
    dsimp only
    rw [hmapt, hfindt]

/-- Witness for C9: a one-item store, a nonexistent id. -/
theorem markPurchased_not_found_witness :
    shoppingMarkPurchasedById [sItemFix] 2 10 = (.error "Item not found", [sItemFix]) ∧
    ShoppingItemModel.markPurchased [sItemFix] 2 10 = (false, [sItemFix]) ∧
    todoMarkComplete [pTodo] 2 = (.error "Todo not found", [pTodo]) := by
  obtain h := markPurchased_not_found [sItemFix] [pTodo] 2 10
    (by decide) (by decide)
  exact h

/-! ## Claim C7 (serialization round trip of stored assignee lists) -/

theorem digitVal_digitChar : ∀ d < 10, digitVal (digitChar d) = some d := by decide

theorem ofDigitsRev_toDigitsRev : ∀ n, ofDigitsRev (toDigitsRev n) = some n := by
  intro n
  induction n using Nat.strong_induction_on with
  | _ n ih =>
    cases n with
    | zero => simp [toDigitsRev, ofDigitsRev]
    | succ m =>
      rw [toDigitsRev]
      have h1 : digitVal (digitChar ((m + 1) % 10)) = some ((m + 1) % 10) :=
        digitVal_digitChar _ (Nat.mod_lt _ (by omega))
      have h2 : ofDigitsRev (toDigitsRev ((m + 1) / 10)) = some ((m + 1) / 10) :=
        ih _ (Nat.div_lt_self (Nat.succ_pos m) (by omega))
      unfold ofDigitsRev
      rw [h1, h2]
      dsimp only
      exact congrArg some (by omega)

theorem toDigitsRev_ne_nil (n : Nat) (h : n ≠ 0) : toDigitsRev n ≠ [] := by
  cases n with
  | zero => exact absurd rfl h
  | succ m =>
    rw [toDigitsRev]
    simp

theorem parseNatChars_natToChars (n : Nat) :
    parseNatChars (natToChars n) = some n := by
  unfold natToChars
  by_cases h : n = 0
  · subst h
    decide
  · rw [if_neg h]
    unfold parseNatChars
    have hne : (toDigitsRev n).reverse ≠ [] := by
      intro hrev
      exact toDigitsRev_ne_nil n h (List.reverse_eq_nil_iff.mp hrev)
    rw [if_neg hne, List.reverse_reverse]
    exact ofDigitsRev_toDigitsRev n

theorem splitOnChar_no_sep (sep : Char) :
    ∀ (p : List Char), (∀ c ∈ p, c ≠ sep) → splitOnChar sep p = [p] := by
  intro p
  induction p with
  | nil => intro; rfl
  | cons c r ih =>
    intro h
    have hc : c ≠ sep := h c (by simp)
    unfold splitOnChar
    rw [if_neg hc, ih (fun x hx => h x (by simp [hx]))]

theorem splitOnChar_append (sep : Char) :
    ∀ (p rest : List Char), (∀ c ∈ p, c ≠ sep) →
      splitOnChar sep (p ++ sep :: rest) = p :: splitOnChar sep rest := by
  intro p
  induction p with
  | nil =>
    intro rest _
    show splitOnChar sep (sep :: rest) = [] :: splitOnChar sep rest
    simp only [splitOnChar]
    simp
  | cons c r ih =>
    intro rest h
    have hc : c ≠ sep := h c (by simp)
    show splitOnChar sep (c :: (r ++ sep :: rest)) = (c :: r) :: splitOnChar sep rest
    simp only [splitOnChar]
    rw [if_neg hc, ih rest (fun x hx => h x (by simp [hx]))]

theorem splitOnChar_joinComma :
    ∀ parts : List (List Char), parts ≠ [] →
      (∀ p ∈ parts, ∀ c ∈ p, c ≠ ',') →
      splitOnChar ',' (joinComma parts) = parts := by
  intro parts
  induction parts with
  | nil => intro h; exact absurd rfl h
  | cons p ps ih =>
    intro _ h
    cases ps with
    | nil =>
      show splitOnChar ',' p = [p]
      exact splitOnChar_no_sep ',' p (h p (by simp))
    | cons q qs =>
      show splitOnChar ',' (p ++ ',' :: joinComma (q :: qs)) = p :: q :: qs
      rw [splitOnChar_append ',' p _ (h p (by simp))]
      rw [ih (List.cons_ne_nil q qs) (fun x hx c hc => h x (by simp [hx]) c hc)]

theorem parseAllNat_map (ns : List Nat) :
    parseAllNat (ns.map natToChars) = some ns := by
  induction ns with
  | nil => rfl
  | cons n ns ih =>
    rw [List.map_cons]
    unfold parseAllNat
    rw [parseNatChars_natToChars, ih]

theorem mem_toDigitsRev_isDigit :
    ∀ n c, c ∈ toDigitsRev n → ∃ d, d < 10 ∧ c = digitChar d := by
  intro n
  induction n using Nat.strong_induction_on with
  | _ n ih =>
    cases n with
    | zero => intro c hc; simp [toDigitsRev] at hc
    | succ m =>
      intro c hc
      rw [toDigitsRev] at hc
      rcases List.mem_cons.mp hc with hc | hc
      · exact ⟨(m + 1) % 10, Nat.mod_lt _ (by omega), hc⟩
      · exact ih _ (Nat.div_lt_self (Nat.succ_pos m) (by omega)) c hc

theorem digitChar_ne_comma : ∀ d, d < 10 → digitChar d ≠ ',' := by decide

theorem natToChars_no_comma (n : Nat) : ∀ c ∈ natToChars n, c ≠ ',' := by
  intro c hc
  unfold natToChars at hc
  by_cases h : n = 0
  · rw [if_pos h] at hc
    simp at hc
    subst hc
    decide
  · rw [if_neg h, List.mem_reverse] at hc
    obtain ⟨d, hd, rfl⟩ := mem_toDigitsRev_isDigit n c hc
    exact digitChar_ne_comma d hd

theorem natToChars_ne_nil (n : Nat) : natToChars n ≠ [] := by
  unfold natToChars
  by_cases h : n = 0
  · rw [if_pos h]
    simp
  · rw [if_neg h]
    intro hrev
    exact toDigitsRev_ne_nil n h (List.reverse_eq_nil_iff.mp hrev)

theorem joinComma_cons_ne_nil (p : List Char) (ps : List (List Char))
    (hp : p ≠ []) : joinComma (p :: ps) ≠ [] := by
  cases ps with
  | nil => exact hp
  | cons q qs =>
    show p ++ ',' :: joinComma (q :: qs) ≠ []
    intro h
    rcases List.append_eq_nil.mp h with ⟨h1, _⟩
    exact hp h1

/-- The serialization round trip: a stored assignee list parses back to the
identical list, in the same order. -/
theorem parseNatList_serializeNatList (l : List Nat) :
    parseNatList (serializeNatList l) = some l := by
  unfold parseNatList serializeNatList
  dsimp
  rw [List.reverse_append]
  dsimp
  rw [List.reverse_reverse]
  cases l with
  | nil =>
    rw [List.map_nil]
    rw [show joinComma [] = [] from rfl, if_pos rfl]
  | cons n ns =>
    have hne : joinComma ((n :: ns).map natToChars) ≠ [] := by
      rw [List.map_cons]
      exact joinComma_cons_ne_nil _ _ (natToChars_ne_nil n)
    rw [if_neg hne]
    rw [splitOnChar_joinComma _ (by simp) ?_]
    · exact parseAllNat_map (n :: ns)
    · intro p hp c hc
      rw [List.mem_map] at hp
      obtain ⟨m, _, rfl⟩ := hp
      exact natToChars_no_comma m c hc

theorem serializeNatList_ne_empty (l : List Nat) : serializeNatList l ≠ "" := by
  unfold serializeNatList
  intro h
  have := congrArg String.data h
  simp at this

/-- `TodoRowModel.create` finds the row it just inserted. -/
theorem findRow_create (db : List TodoRow) (data : CreateTodoData) :
    ((TodoRowModel.create db data).2).find?
        (fun r => r.id == (TodoRowModel.create db data).1) =
      some { id := nextTodoRowId db
             user_id := falsyNat data.userId
             group_id := falsyNat data.groupId
             assigned_user_ids := data.assignedUserIds.map serializeNatList
             task := data.task
             priority := data.priority.getD .medium
             deadline := data.deadline
             completed := false
             created_by := data.createdBy } := by
  unfold TodoRowModel.create
  dsimp only
  have hfresh : ∀ x ∈ db, (x.id == nextTodoRowId db) = false := by
    intro x hx
    have hle : x.id ≤ db.foldr (fun t m => max t.id m) 0 :=
      mem_le_foldr_max (fun t : TodoRow => t.id) db x hx
    have hlt : x.id < nextTodoRowId db := by
      unfold nextTodoRowId
      omega
    simp [Nat.ne_of_lt hlt]
  rw [find?_append_of_none _ db _ hfresh]
  simp

/-- Reading back the freshly created row decodes every field, the assignee
list through the JSON round trip. -/
theorem findById_create_parsed (db : List TodoRow) (data : CreateTodoData) :
    TodoRowModel.findById (TodoRowModel.create db data).2
        (TodoRowModel.create db data).1 =
      some { id := nextTodoRowId db
             user_id := falsyNat data.userId
             group_id := falsyNat data.groupId
             assigned_user_ids := data.assignedUserIds
             task := data.task
             priority := data.priority.getD .medium
             deadline := data.deadline
             completed := false
             created_by := data.createdBy } := by
  unfold TodoRowModel.findById
  rw [findRow_create]
  rcases ha : data.assignedUserIds with _ | l
  · rfl
  · dsimp
    rw [if_neg (serializeNatList_ne_empty l), parseNatList_serializeNatList]

/-- C7: creating a record and reading it back by the returned id yields
exactly the submitted payload: the task text, deadline, explicit priority,
and — through the JSON encode/decode pair — the assignee-id list, identical
and in the same order. -/
theorem create_get_roundtrip (db : List TodoRow) (data : CreateTodoData) :
    ((TodoRowModel.findById (TodoRowModel.create db data).2
        (TodoRowModel.create db data).1).map (fun r => r.task) = some data.task) ∧
    ((TodoRowModel.findById (TodoRowModel.create db data).2
        (TodoRowModel.create db data).1).map (fun r => r.deadline) =
      some data.deadline) ∧
    ((TodoRowModel.findById (TodoRowModel.create db data).2
        (TodoRowModel.create db data).1).map (fun r => r.assigned_user_ids) =
      some data.assignedUserIds) ∧
    (∀ p, data.priority = some p →
      (TodoRowModel.findById (TodoRowModel.create db data).2
        (TodoRowModel.create db data).1).map (fun r => r.priority) = some p) := by
  rw [findById_create_parsed]
  refine ⟨rfl, rfl, rfl, ?_⟩
  intro p hp
  rw [hp]
  rfl

/-- Witness for C7: a concrete payload with a three-element assignee list
and an explicit priority. -/
theorem create_get_roundtrip_witness :
    ((TodoRowModel.findById (TodoRowModel.create [] dataFix).2
        (TodoRowModel.create [] dataFix).1).map (fun r => r.assigned_user_ids) =
      some dataFix.assignedUserIds) ∧
    ((TodoRowModel.findById (TodoRowModel.create [] dataFix).2
        (TodoRowModel.create [] dataFix).1).map (fun r => r.priority) =
      some Priority.high) := by
  obtain h := create_get_roundtrip [] dataFix
  exact ⟨h.2.2.1, h.2.2.2 .high rfl⟩

/-! ## Claim C10 (the scheduler's upcoming band) -/

/-- C10 (the code against its own stated intent): the per-minute check does
NOT select a todo whose deadline is exactly 15 minutes after the current
time, but DOES select one 30 minutes out and one due right now.  The filter
computes `Math.abs((deadline - targetTime) / 60000)` with `targetTime = now
+ 15 min` and then tests the 14..16 band — measuring the band from the
already-shifted target instead of from `now`, contradicting the code's own
comment ("within 14-16 minutes from now"), its notification text ("in 15
minutes"), and the claimed selection rule. -/
theorem upcoming_check_band_off_target :
    checkUpcomingDeadlinesSelects 0 t15Todo = false ∧
    checkUpcomingDeadlinesSelects 0 t30Todo = true ∧
    checkUpcomingDeadlinesSelects 0 tNowTodo = true ∧
    t15Todo.deadline = some (15 * 60000) ∧
    t30Todo.deadline = some (30 * 60000) ∧
    tNowTodo.deadline = some 0 := by
  refine ⟨by decide, by decide, by decide, by decide, by decide, by decide⟩

end DailyAssistant
